import Mathlib

/-!
Verification development for the zarr-serving core of xpublish
(src/xpublish/routers/zarr.py).

The Python module is shallowly embedded: Python dicts become association
lists with insertion-order-preserving update, exceptions become an explicit
error type carried by Except, numpy/dask arrays become shape-plus-indexing
structures over an abstract element type, and the uninitialized memory
returned by np.empty_like is made an explicit input of the chunk extractor.
External library collaborators (xarray encoders, zarr helpers, numcodecs
codecs, the cachey cache) are modelled at the interface the module consumes.
-/

namespace XpublishZarr

/-! ## Python dict operations (insertion-ordered association lists) -/

/-- Lookup in a Python dict, modelled as first match in an association list. -/
def dictGet {β : Type} (d : List (String × β)) (k : String) : Option β :=
  match d with
  | [] => none
  | (k', v) :: rest => if k' = k then some v else dictGet rest k

/-- Python dict assignment d[k] = v: replace in place if the key exists,
otherwise append (Python dicts preserve insertion order). -/
def dictSet {β : Type} (d : List (String × β)) (k : String) (v : β) : List (String × β) :=
  match d with
  | [] => [(k, v)]
  | (k', v') :: rest => if k' = k then (k', v) :: rest else (k', v') :: dictSet rest k v

/-- Python dict d.pop(k, default) result dict: the dict with key k removed. -/
def dictPop {β : Type} (d : List (String × β)) (k : String) : List (String × β) :=
  match d with
  | [] => []
  | (k', v) :: rest => if k' = k then dictPop rest k else (k', v) :: dictPop rest k

def isPrefixList (needle hay : List Char) : Bool :=
  match needle, hay with
  | [], _ => true
  | _ :: _, [] => false
  | a :: as, b :: bs => a = b && isPrefixList as bs

def hasSubList (needle : List Char) (hay : List Char) : Bool :=
  match hay with
  | [] => isPrefixList needle []
  | _ :: rest => isPrefixList needle hay || hasSubList needle rest

/-- Python substring containment: needle in hay. -/
def pyIn (needle hay : String) : Bool :=
  hasSubList needle.toList hay.toList

/-! ## Constants imported by the module from zarr / xarray -/

def zarr_format : Nat := 2

def zarr_consolidated_format : Nat := 1

def zarr_metadata_key : String := ".zmetadata"

/-- zarr.storage.array_meta_key -/
def array_meta_key : String := ".zarray"

/-- zarr.storage.attrs_key -/
def attrs_key : String := ".zattrs"

/-- zarr.storage.group_meta_key -/
def group_meta_key : String := ".zgroup"

/-- xarray.backends.zarr.DIMENSION_KEY -/
def DIMENSION_KEY : String := "_ARRAY_DIMENSIONS"

/-! ## Errors

The Python exception classes raised or propagated by the module:
ValueError (spec: ValidationError), KeyError (raw dict lookup miss),
HTTPException 404 (spec: NotFoundError) and RuntimeError for object
dtypes (spec: UnsupportedTypeError). -/

inductive Err
  | validationError
  | keyError
  | notFound
  | unsupportedType
deriving DecidableEq, Repr

/-! ## Buffers and codecs -/

/-- A byte string is a list of byte values. -/
abbrev Bytes := List Nat

/-- The value passed through the encoding pipeline: either a raw byte
buffer (ensure_ndarray views it with a primitive uint8 dtype) or an
array of object dtype (no primitive element type). -/
inductive Buffer
  | raw (bs : Bytes)
  | objArr (elems : List Nat)
deriving DecidableEq, Repr

/-- ensure_ndarray(chunk).dtype == object -/
def Buffer.isObject : Buffer → Bool
  | .raw _ => false
  | .objArr _ => true

/-- len(chunk) for a buffer. -/
def Buffer.len : Buffer → Nat
  | .raw bs => bs.length
  | .objArr es => es.length

/-- A numcodecs codec (filter or compressor): an opaque byte transform
together with its get_config() representation. -/
structure Codec where
  config : List (String × Nat)
  encode : Buffer → Buffer

/-- zarr.storage.default_compressor: an opaque stand-in for the default
Blosc codec; no claim depends on its transform, only on when it is chosen. -/
def default_compressor : Codec :=
  { config := [("id", 0)], encode := fun b => b }

/-- The filter list actually iterated: Python `if filters:` skips both
None and the empty list, which coincides with folding over []. -/
def filtersList (filters : Option (List Codec)) : List Codec :=
  filters.getD []

/-- The filter pipeline of _encode_chunk: each filter transforms the
buffer and passes its output to the next, in declared order. -/
def applyFilters (filters : Option (List Codec)) (chunk : Buffer) : Buffer :=
  (filtersList filters).foldl (fun c f => f.encode c) chunk

/-- _encode_chunk(chunk, filters, compressor): apply filters in order,
raise RuntimeError if the (filtered) buffer has object dtype, then
apply the compressor if one is configured. -/
def encode_chunk (chunk : Buffer) (filters : Option (List Codec)) (compressor : Option Codec) :
    Except Err Buffer :=
  let c1 := applyFilters filters chunk
  if c1.isObject then .error .unsupportedType
  else
    match compressor with
    | some comp => .ok (comp.encode c1)
    | none => .ok c1

/-! ## Arrays

numpy arrays are a shape plus a total indexing function; dask arrays add a
regular chunk shape (dask chunks are tuples of per-block sizes, of which
the module reads c[0] per dimension; xarray-produced dask arrays are
regularly chunked, so the leading size is the chunk shape). -/

structure NDArray (α : Type) where
  shape : List Nat
  data : List Nat → α

structure DaskArray (α : Type) where
  shape : List Nat
  chunks : List Nat
  data : List Nat → α

/-- The backing data of a variable: a dense numpy block or a dask array. -/
inductive DataSource (α : Type)
  | npy (a : NDArray α)
  | dsk (d : DaskArray α)

def DataSource.shapeOf {α : Type} : DataSource α → List Nat
  | .npy a => a.shape
  | .dsk d => d.shape

/-- Decimal digit run value, if nonempty and all digits. -/
def digitsVal (cs : List Char) : Option Nat :=
  if cs.isEmpty then none
  else if cs.all Char.isDigit then
    some (cs.foldl (fun a c => a * 10 + (c.toNat - 48)) 0)
  else none

/-- Models Python int(s) on plain decimal forms: an optional leading minus
sign followed by digits. (Python also strips whitespace and accepts + and
underscore separators; chunk clients do not produce those forms and they
are not modelled.) -/
def pyIntOfString (s : String) : Option Int :=
  match s.toList with
  | '-' :: rest => (digitsVal rest).map fun n => -(n : Int)
  | cs => (digitsVal cs).map fun n => (n : Int)

/-- Python str.split with an explicit one-character separator: empty
parts are kept, and the empty string gives one empty part. -/
def splitOnChar (sep : Char) (cs : List Char) : List (List Char) :=
  match cs with
  | [] => [[]]
  | c :: rest =>
    if c = sep then [] :: splitOnChar sep rest
    else
      match splitOnChar sep rest with
      | h :: t => (c :: h) :: t
      | [] => [[c]]

/-- tuple(map(int, chunk_id.split('.'))). -/
def parseChunkId (s : String) : Option (List Int) :=
  (splitOnChar '.' s.toList).mapM (fun cs => pyIntOfString (String.mk cs))

def zip3With (f : Nat → Nat → Nat → Nat) : List Nat → List Nat → List Nat → List Nat
  | a :: as, b :: bs, c :: cs => f a b c :: zip3With f as bs cs
  | _, _, _ => []

/-- Number of dask blocks along one dimension: ceil(shape / chunk). -/
def ceilDiv (s c : Nat) : Nat := (s + c - 1) / c

/-- dask (like numpy) resolves a negative block index relative to the end. -/
def normBlockIdx (k : Int) (n : Nat) : Int := if k < 0 then k + n else k

def inRangeIdx (k : Int) (n : Nat) : Bool :=
  decide (0 ≤ normBlockIdx k n) && decide (normBlockIdx k n < (n : Int))

/-- Validity of da.blocks[ikeys]: one index per dimension, each within the
block grid (a rank-mismatched index tuple, which dask would treat as
partial indexing or reject, is modelled as the out-of-range error). -/
def blockIndexOk {α : Type} (d : DaskArray α) (ikeys : List Int) : Bool :=
  (ikeys.length == d.shape.length) && (ikeys.length == d.chunks.length) &&
    (List.zipWith inRangeIdx ikeys (List.zipWith ceilDiv d.shape d.chunks)).all (fun b => b)

/-- The normalized nonnegative block indices. -/
def blockKeys {α : Type} (d : DaskArray α) (ikeys : List Int) : List Nat :=
  List.zipWith (fun (k : Int) (n : Nat) => (normBlockIdx k n).toNat) ikeys
    (List.zipWith ceilDiv d.shape d.chunks)

/-- Shape of block ks: full chunk size except clipped at the array edge. -/
def daskBlockShape {α : Type} (d : DaskArray α) (ks : List Nat) : List Nat :=
  zip3With (fun s c k => min c (s - c * k)) d.shape d.chunks ks

/-- da.blocks[ikeys] followed by .compute(): the materialized block at the
given block coordinate. -/
def daskBlock {α : Type} (d : DaskArray α) (ikeys : List Int) : Except Err (NDArray α) :=
  if blockIndexOk d ikeys then
    let ks := blockKeys d ikeys
    .ok { shape := daskBlockShape d ks,
          data := fun off => d.data (zip3With (fun c k o => c * k + o) d.chunks ks off) }
  else .error .validationError

/-- Index tuple ix lies inside bounds in every dimension. -/
def inRegion (ix bounds : List Nat) : Bool :=
  (ix.length == bounds.length) &&
    (List.zipWith (fun i b => decide (i < b)) ix bounds).all (fun b => b)

/-- The tail of _get_data_chunk: if the materialized block is smaller than
out_shape, allocate with np.empty_like (whose contents are whatever the
allocator returns — the explicit mem input) and copy the block into the
leading region; otherwise return the block unchanged. -/
def padTo {α : Type} (out_shape : List Nat) (mem : List Nat → α) (a : NDArray α) : NDArray α :=
  if a.shape = out_shape then a
  else { shape := out_shape,
         data := fun ix => if inRegion ix a.shape then a.data ix else mem ix }

/-- _get_data_chunk(da, chunk_id, out_shape): parse the dotted chunk id
(int() failure is a ValueError), select the dask block or — for a numpy
array — require the all-zero coordinate, then pad edge blocks to
out_shape. mem is the uninitialized memory np.empty_like hands back. -/
def get_data_chunk {α : Type} (da : DataSource α) (chunk_id : String) (out_shape : List Nat)
    (mem : List Nat → α) : Except Err (NDArray α) :=
  match parseChunkId chunk_id with
  | none => .error .validationError
  | some ikeys =>
    match da with
    | .dsk d =>
      match daskBlock d ikeys with
      | .error e => .error e
      | .ok blk => .ok (padTo out_shape mem blk)
    | .npy a =>
      if ikeys = List.replicate a.shape.length (0 : Int) then .ok (padTo out_shape mem a)
      else .error .validationError

/-! ## Attributes and per-variable metadata -/

/-- Wire attribute values. User attribute values are opaque (a Nat tag);
encode_zarr_attr_value, an external xarray encoder, is modelled as the
injection of the raw value into the wire representation. The reserved
dimension attribute holds the list of dimension names. -/
inductive AttrVal
  | enc (raw : Nat)
  | dimList (dims : List String)
deriving DecidableEq, Repr

/-- A variable's encoding options dict. An outer none models an absent
key; compressor/filters distinguish a key explicitly set to None from an
absent key, because .get falls back to a default only when absent. -/
structure Encoding where
  compressor : Option (Option Codec) := none
  filters : Option (Option (List Codec)) := none
  chunks : Option (List Nat) := none

/-- A dataset variable as the module consumes it. The external xarray
collaborators encode_zarr_variable and extract_zarr_variable_encoding are
modelled by presenting each variable already in encoded form: enc is the
variable's own .encoding dict and xenc the extract_zarr_variable_encoding
output. dtypeStr is the canonical numpy dtype string (dtype.str; the .name
form used by info is collapsed to the same string). -/
structure EncVar (α : Type) where
  dims : List String
  attrs : List (String × Nat)
  dtypeStr : String
  data : DataSource α
  enc : Encoding := {}
  xenc : Encoding := {}

/-- _extract_zattrs(da): encode every user attribute, set the reserved
dimension-list attribute, then drop any _FillValue entry. -/
def extract_zattrs {α : Type} (da : EncVar α) : List (String × AttrVal) :=
  let z := da.attrs.foldl (fun z kv => dictSet z kv.1 (AttrVal.enc kv.2)) []
  let z := dictSet z DIMENSION_KEY (AttrVal.dimList da.dims)
  dictPop z "_FillValue"

/-- _extract_fill_value(da, dtype): pops _FillValue from the (discarded)
encoded variable and encodes it. encode_fill_value, an external zarr
helper, is modelled as the identity on the raw attribute value. -/
def extract_fill_value {α : Type} (da : EncVar α) : Option Nat :=
  dictGet da.attrs "_FillValue"

/-- The .zarray document of one variable. -/
structure ZArrayMeta where
  compressor : Option Codec
  filters : Option (List Codec)
  chunks : List Nat
  dtype : String
  fill_value : Option Nat
  order : String
  shape : List Nat
  zarr_format : Nat

/-- The block shape induced by the variable's backing source: the first
dask chunk size per dimension, or the full shape for a numpy source
(the var_chunks of _extract_zarray). -/
def inferredChunks {α : Type} (da : EncVar α) : List Nat :=
  match da.data with
  | .dsk d => d.chunks
  | .npy a => a.shape

/-- _extract_zarray(da, encoding, dtype): assemble the .zarray document;
chunks defaults to the full shape when undeclared; raise
ValueError('Encoding chunks do not match inferred chunks') when the
declared chunks differ from the block shape of the backing source. -/
def extract_zarray {α : Type} (da : EncVar α) (encoding : Encoding) (dtype : String) :
    Except Err ZArrayMeta :=
  if inferredChunks da = encoding.chunks.getD da.data.shapeOf then
    .ok { compressor :=
            match encoding.compressor with
            | some v => v
            | none =>
              match da.enc.compressor with
              | some v => v
              | none => some default_compressor,
          filters :=
            match encoding.filters with
            | some v => v
            | none =>
              match da.enc.filters with
              | some v => v
              | none => none,
          chunks := encoding.chunks.getD da.data.shapeOf,
          dtype := dtype,
          fill_value := extract_fill_value da,
          order := "C",
          shape := da.data.shapeOf,
          zarr_format := zarr_format }
  else .error .validationError

/-! ## Consolidated metadata and the accessor -/

/-- One entry of the consolidated metadata dict: the group document, an
attrs document, or an array document. -/
inductive MetaEntry
  | group (zf : Nat)
  | attrsE (kvs : List (String × AttrVal))
  | zarrayE (za : ZArrayMeta)

structure ZMeta where
  zarr_consolidated_format : Nat
  metadata : List (String × MetaEntry)

/-- The xarray Dataset as the module consumes it. -/
structure Dataset (α : Type) where
  attrs : List (String × Nat)
  dims : List (String × Nat)
  vars : List (String × EncVar α)

/-- RestZarrAccessor.get_zattrs: encode the dataset-level attributes. -/
def Dataset.get_zattrs {α : Type} (ds : Dataset α) : List (String × AttrVal) :=
  ds.attrs.foldl (fun z kv => dictSet z kv.1 (AttrVal.enc kv.2)) []

/-- The per-variable loop of _get_zmetadata: insert each variable's
.zattrs and .zarray documents, propagating the first assembly error. -/
def assembleVars {α : Type} (vars : List (String × EncVar α)) (m : List (String × MetaEntry)) :
    Except Err (List (String × MetaEntry)) :=
  match vars with
  | [] => .ok m
  | (k, v) :: rest =>
    match extract_zarray v v.xenc v.dtypeStr with
    | .error e => .error e
    | .ok za =>
      assembleVars rest
        (dictSet (dictSet m (k ++ "/" ++ attrs_key) (.attrsE (extract_zattrs v)))
          (k ++ "/" ++ array_meta_key) (.zarrayE za))

/-- _get_zmetadata: the consolidated document, plus the self._variables
and self._encoding dicts the loop fills in. -/
def get_zmetadata {α : Type} (ds : Dataset α) :
    Except Err (ZMeta × List (String × EncVar α) × List (String × Encoding)) :=
  match assembleVars ds.vars
      (dictSet (dictSet [] group_meta_key (MetaEntry.group zarr_format))
        attrs_key (.attrsE ds.get_zattrs)) with
  | .error e => .error e
  | .ok m =>
    .ok ({ zarr_consolidated_format := zarr_consolidated_format, metadata := m },
         ds.vars, ds.vars.map (fun kv => (kv.1, kv.2.xenc)))

/-- The accessor's mutable fields: _zmetadata, _variables, _encoding. -/
structure AccState (α : Type) where
  zmetadataMemo : Option ZMeta := none
  vars : List (String × EncVar α) := []
  encoding : List (String × Encoding) := []

def freshState {α : Type} : AccState α :=
  { zmetadataMemo := none, vars := [], encoding := [] }

/-- The zmetadata property: build and memoize on first access, then
return the memoized structure. -/
def zmetadataAccess {α : Type} (ds : Dataset α) (st : AccState α) :
    Except Err (ZMeta × AccState α) :=
  match st.zmetadataMemo with
  | some z => .ok (z, st)
  | none =>
    match get_zmetadata ds with
    | .error e => .error e
    | .ok (z, vs, es) => .ok (z, { zmetadataMemo := some z, vars := vs, encoding := es })

/-- All index tuples of a shape in C (row-major) order. -/
def indicesC : List Nat → List (List Nat)
  | [] => [[]]
  | n :: rest => (List.range n).flatMap fun i => (indicesC rest).map (fun ix => i :: ix)

/-- data_chunk.tobytes(): flatten in C order and serialize each element
through the element byte encoding eb. -/
def tobytes {α : Type} (eb : α → Bytes) (a : NDArray α) : Bytes :=
  (indicesC a.shape).flatMap fun ix => eb (a.data ix)

/-- RestZarrAccessor.get_key(var, chunk): look up the variable's .zarray
document and backing data (a raw dict/key lookup — a missing variable is
a KeyError, not a 404), extract the chunk, and encode it. -/
def get_key {α : Type} (eb : α → Bytes) (ds : Dataset α) (var chunk : String)
    (st : AccState α) (mem : List Nat → α) : Except Err (Buffer × AccState α) :=
  match zmetadataAccess ds st with
  | .error e => .error e
  | .ok (zm, st') =>
    match dictGet zm.metadata (var ++ "/" ++ array_meta_key) with
    | some (.zarrayE am) =>
      match dictGet st'.vars var with
      | some v =>
        match get_data_chunk v.data chunk am.chunks mem with
        | .error e => .error e
        | .ok data_chunk =>
          match encode_chunk (.raw (tobytes eb data_chunk)) am.filters am.compressor with
          | .error e => .error e
          | .ok buf => .ok (buf, st')
      | none => .error .keyError
    | some _ => .error .keyError
    | none => .error .keyError

/-! ## The response cache

Modelled from the spec: the shared cache is cachey.Cache, an external
collaborator supplied by process lifecycle management, not part of this
repository's source. Spec section 4.4: get(key) returns the stored bytes
or nothing, put(key, bytes, cost, size) inserts or replaces the entry.
The cost/size bookkeeping and the eviction policy are not exercised by
the claims settled here and are not modelled. -/

abbrev Cache := List (String × Buffer)

def cacheGet (c : Cache) (k : String) : Option Buffer := dictGet c k

def cachePut (c : Cache) (k : String) (v : Buffer) (_cost _size : Nat) : Cache :=
  dictSet c k v

/-- A route response: a metadata document served as JSON, or an opaque
binary chunk payload. -/
inductive RespVal
  | meta (e : MetaEntry)
  | bin (payload : Buffer)

/-- get_variable_chunk(var, chunk): serve variable metadata when the
coordinate string contains (Python substring containment) a reserved
token, 404 for the group token, otherwise the cached or freshly
encoded-and-cached chunk bytes. -/
def getVariableChunk {α : Type} (eb : α → Bytes) (ds : Dataset α) (var chunk : String)
    (st : AccState α) (cache : Cache) (mem : List Nat → α) :
    Except Err (RespVal × AccState α × Cache) :=
  match zmetadataAccess ds st with
  | .error e => .error e
  | .ok (zm, st') =>
    if pyIn array_meta_key chunk then
      match dictGet zm.metadata (var ++ "/" ++ array_meta_key) with
      | some e => .ok (.meta e, st', cache)
      | none => .error .keyError
    else if pyIn attrs_key chunk then
      match dictGet zm.metadata (var ++ "/" ++ attrs_key) with
      | some e => .ok (.meta e, st', cache)
      | none => .error .keyError
    else if pyIn group_meta_key chunk then
      .error .notFound
    else
      let ck := var ++ "/" ++ chunk
      match cacheGet cache ck with
      | some resp => .ok (.bin resp, st', cache)
      | none =>
        match get_key eb ds var chunk st' mem with
        | .error e => .error e
        | .ok (echunk, st'') =>
          .ok (.bin echunk, st'', cachePut cache ck echunk 0 echunk.len)

/-! ## The info endpoint -/

structure InfoVar where
  type : String
  dimensions : List String
  attributes : List (String × AttrVal)

structure InfoDoc (α : Type) where
  dimensions : List (String × Nat)
  vars : List (String × InfoVar)
  global_attributes : List (String × AttrVal)

/-- One iteration of info's per-variable loop. attrs.pop with no default
raises KeyError when the key is absent; the popped dict is the one
aliased inside the memoized zmetadata, so the pop rewrites that entry. -/
def infoVarsStep {α : Type} (acc : Except Err (ZMeta × List (String × InfoVar)))
    (kv : String × EncVar α) : Except Err (ZMeta × List (String × InfoVar)) :=
  match acc with
  | .error e => .error e
  | .ok (zm, ivs) =>
    let key := kv.1 ++ "/" ++ attrs_key
    match dictGet zm.metadata key with
    | some (.attrsE kvs) =>
      match dictGet kvs DIMENSION_KEY with
      | some _ =>
        let kvs2 := dictPop kvs DIMENSION_KEY
        .ok ({ zm with metadata := dictSet zm.metadata key (.attrsE kvs2) },
             ivs ++ [(kv.1, { type := kv.2.dtypeStr, dimensions := kv.2.dims,
                              attributes := kvs2 })])
      | none => .error .keyError
    | some _ => .error .keyError
    | none => .error .keyError

/-- RestZarrAccessor.info(): the NCO-JSON-like schema. Because the
per-variable attrs dicts are aliased into the memoized zmetadata, the
pops performed here persist into the accessor state. -/
def infoOp {α : Type} (ds : Dataset α) (st : AccState α) :
    Except Err (InfoDoc α × AccState α) :=
  match zmetadataAccess ds st with
  | .error e => .error e
  | .ok (zm, st') =>
    match st'.vars.foldl infoVarsStep (.ok (zm, [])) with
    | .error e => .error e
    | .ok (zm2, ivs) =>
      match dictGet zm2.metadata attrs_key with
      | some (.attrsE g) =>
        .ok ({ dimensions := ds.dims, vars := ivs, global_attributes := g },
             { st' with zmetadataMemo := some zm2 })
      | some _ => .error .keyError
      | none => .error .keyError

/-! ## Dict lemmas -/

theorem dictGet_dictSet_self {β : Type} (d : List (String × β)) (k : String) (v : β) :
    dictGet (dictSet d k v) k = some v := by
  induction d with
  | nil => simp [dictSet, dictGet]
  | cons hd tl ih =>
    obtain ⟨k', v'⟩ := hd
    by_cases h : k' = k
    · simp [dictSet, dictGet, h]
    · simp [dictSet, dictGet, h, ih]

theorem dictGet_dictSet_ne {β : Type} (d : List (String × β)) (k k' : String) (v : β)
    (h : k' ≠ k) : dictGet (dictSet d k v) k' = dictGet d k' := by
  induction d with
  | nil =>
    simp only [dictSet, dictGet]
    rw [if_neg (Ne.symm h)]
  | cons hd tl ih =>
    obtain ⟨k'', v''⟩ := hd
    simp only [dictSet]
    by_cases h2 : k'' = k
    · rw [if_pos h2]
      subst h2
      simp only [dictGet]
      rw [if_neg (Ne.symm h), if_neg (Ne.symm h)]
    · rw [if_neg h2]
      simp only [dictGet]
      by_cases h3 : k'' = k'
      · rw [if_pos h3, if_pos h3]
      · rw [if_neg h3, if_neg h3]
        exact ih

theorem dictGet_dictPop_self {β : Type} (d : List (String × β)) (k : String) :
    dictGet (dictPop d k) k = none := by
  induction d with
  | nil => simp [dictPop, dictGet]
  | cons hd tl ih =>
    obtain ⟨k', v'⟩ := hd
    simp only [dictPop]
    by_cases h : k' = k
    · rw [if_pos h]
      exact ih
    · rw [if_neg h]
      simp only [dictGet]
      rw [if_neg h]
      exact ih

theorem dictGet_dictPop_ne {β : Type} (d : List (String × β)) (k k' : String)
    (h : k' ≠ k) : dictGet (dictPop d k) k' = dictGet d k' := by
  induction d with
  | nil => simp [dictPop, dictGet]
  | cons hd tl ih =>
    obtain ⟨k'', v''⟩ := hd
    simp only [dictPop]
    by_cases h2 : k'' = k
    · rw [if_pos h2]
      subst h2
      simp only [dictGet]
      have h4 : k'' ≠ k' := fun he => h he.symm
      rw [if_neg h4]
      exact ih
    · rw [if_neg h2]
      simp only [dictGet]
      by_cases h3 : k'' = k'
      · rw [if_pos h3, if_pos h3]
      · rw [if_neg h3, if_neg h3]
        exact ih

/-! ## C7: exported variable attributes -/

/-- C7: for every variable, the exported per-variable attribute set
contains the reserved dimension-list attribute equal to the variable's
declared dimension order, and never contains a _FillValue entry. -/
theorem c7_zattrs_dimension_list_no_fill_value {α : Type} (da : EncVar α) :
    dictGet (extract_zattrs da) DIMENSION_KEY = some (AttrVal.dimList da.dims) ∧
    dictGet (extract_zattrs da) "_FillValue" = none := by
  unfold extract_zattrs
  constructor
  · rw [dictGet_dictPop_ne _ _ _ (by decide)]
    exact dictGet_dictSet_self _ _ _
  · exact dictGet_dictPop_self _ _

/-! ## C8: object dtype encoding failure -/

/-- C8: an encode call on a buffer of object dtype with no codec
registered to transform it (no filters) fails with the
UnsupportedTypeError (RuntimeError) and never returns bytes. -/
theorem c8_object_dtype_unsupported (chunk : Buffer) (filters : Option (List Codec))
    (compressor : Option Codec) (hobj : chunk.isObject = true)
    (hnc : filtersList filters = []) :
    encode_chunk chunk filters compressor = .error .unsupportedType ∧
    ∀ b : Buffer, encode_chunk chunk filters compressor ≠ .ok b := by
  have h1 : applyFilters filters chunk = chunk := by simp [applyFilters, hnc]
  constructor
  · simp [encode_chunk, h1, hobj]
  · intro b
    simp [encode_chunk, h1, hobj]

theorem c8_object_dtype_unsupported_witness :
    encode_chunk (.objArr [1]) none none = .error .unsupportedType :=
  (c8_object_dtype_unsupported (.objArr [1]) none none (by rfl) (by rfl)).1

/-! ## C9: the filter/compressor pipeline -/

/-- A filter appending a marker byte to raw buffers (concrete codec for
the pipeline witness). -/
def c9f : Codec :=
  { config := [],
    encode := fun c => match c with | .raw l => .raw (l ++ [7]) | x => x }

/-- A compressor reversing raw buffers (concrete codec for the pipeline
witness). -/
def c9c : Codec :=
  { config := [],
    encode := fun c => match c with | .raw l => .raw l.reverse | x => x }

/-- C9: encode applies each filter in declared order (each filter's
output feeding the next); the compressor is applied last when
configured; with no compressor the output is the filtered bytes
unchanged; with no filters and no compressor encode is the identity on
the (byte, hence non-object) buffer. -/
theorem c9_filter_then_compress_pipeline (b : Buffer) (fs : List Codec) (comp : Codec)
    (bs : Bytes) (hfb : applyFilters (some fs) b = .raw bs) (hb : b.isObject = false) :
    (∀ (f : Codec) (fs' : List Codec) (c : Buffer),
      applyFilters (some (f :: fs')) c = applyFilters (some fs') (f.encode c)) ∧
    encode_chunk b (some fs) (some comp) = .ok (comp.encode (.raw bs)) ∧
    encode_chunk b (some fs) none = .ok (.raw bs) ∧
    encode_chunk b none none = .ok b := by
  refine ⟨fun f fs' c => rfl, ?_, ?_, ?_⟩
  · simp [encode_chunk, hfb, Buffer.isObject]
  · simp [encode_chunk, hfb, Buffer.isObject]
  · simp [encode_chunk, applyFilters, filtersList, hb]

theorem c9_filter_then_compress_pipeline_witness :
    encode_chunk (.raw [1, 2]) (some [c9f]) (some c9c) = .ok (c9c.encode (.raw [1, 2, 7])) ∧
    encode_chunk (.raw [1, 2]) (some [c9f]) none = .ok (.raw [1, 2, 7]) ∧
    encode_chunk (.raw [1, 2]) none none = .ok (.raw [1, 2]) ∧
    applyFilters (some (c9f :: [c9c])) (.raw [1, 2]) =
      applyFilters (some [c9c]) (c9f.encode (.raw [1, 2])) := by
  obtain ⟨h1, h2, h3, h4⟩ :=
    c9_filter_then_compress_pipeline (.raw [1, 2]) [c9f] c9c [1, 2, 7] (by rfl) (by rfl)
  exact ⟨h2, h3, h4, h1 c9f [c9c] (.raw [1, 2])⟩

/-! ## C6: unchunked variables accept only the all-zero coordinate -/

/-- C6: for an unchunked (numpy-backed) variable served at its full
shape (its .zarray chunks equal its shape), extraction succeeds exactly
on coordinate strings encoding the all-zero coordinate, returning the
full array; every other coordinate string, malformed ones included,
raises the ValidationError (ValueError). -/
theorem c6_unchunked_all_zero_only {α : Type} (a : NDArray α) (cid : String)
    (mem : List Nat → α) :
    (parseChunkId cid = some (List.replicate a.shape.length (0 : Int)) →
      get_data_chunk (.npy a) cid a.shape mem = .ok a) ∧
    (parseChunkId cid ≠ some (List.replicate a.shape.length (0 : Int)) →
      get_data_chunk (.npy a) cid a.shape mem = .error .validationError) := by
  constructor
  · intro h
    simp [get_data_chunk, h, padTo]
  · intro h
    unfold get_data_chunk
    cases hp : parseChunkId cid with
    | none => rfl
    | some ikeys =>
      rw [hp] at h
      have hne : ikeys ≠ List.replicate a.shape.length (0 : Int) := fun he => h (by rw [he])
      simp [hne]

/-- The concrete unchunked variable data used by the C6 witness. -/
def c6arr : NDArray Int :=
  { shape := [2], data := fun ix => (ix.headD 0 : Int) + 5 }

def memZero : List Nat → Int := fun _ => 0

theorem c6_unchunked_all_zero_only_witness :
    get_data_chunk (.npy c6arr) "0" c6arr.shape memZero = .ok c6arr ∧
    get_data_chunk (.npy c6arr) "1" c6arr.shape memZero = .error .validationError ∧
    get_data_chunk (.npy c6arr) "0.0" c6arr.shape memZero = .error .validationError ∧
    get_data_chunk (.npy c6arr) "abc" c6arr.shape memZero = .error .validationError :=
  ⟨(c6_unchunked_all_zero_only c6arr "0" memZero).1 (by decide),
   (c6_unchunked_all_zero_only c6arr "1" memZero).2 (by decide),
   (c6_unchunked_all_zero_only c6arr "0.0" memZero).2 (by decide),
   (c6_unchunked_all_zero_only c6arr "abc" memZero).2 (by decide)⟩

/-! ## C1: edge chunks are padded to the declared chunk shape -/

/-- Shape of one result of the chunk extractor. -/
def chunkShapeOf {α : Type} (r : Except Err (NDArray α)) : Option (List Nat) :=
  r.toOption.map NDArray.shape

/-- One element of one result of the chunk extractor. -/
def chunkElem {α : Type} (r : Except Err (NDArray α)) (ix : List Nat) : Option α :=
  r.toOption.map fun a => a.data ix

theorem chunkShapeOf_ok {α : Type} (a : NDArray α) :
    chunkShapeOf (.ok a : Except Err (NDArray α)) = some a.shape := rfl

theorem chunkElem_ok {α : Type} (a : NDArray α) (ix : List Nat) :
    chunkElem (.ok a : Except Err (NDArray α)) ix = some (a.data ix) := rfl

/-- C1 (amended): for a chunked variable served at its declared chunk
shape, extraction at any in-range block coordinate returns a block of
exactly the declared chunk shape whose leading (in-bounds) region equals
the materialized source data; on a boundary block the region beyond the
source data holds whatever contents np.empty_like handed back (the mem
input) — the code never writes it, so it is not a fixed deterministic
filler. -/
theorem c1_edge_chunk_shape_and_regions {α : Type} (d : DaskArray α) (cid : String)
    (ikeys : List Int) (mem : List Nat → α) (ix : List Nat)
    (hp : parseChunkId cid = some ikeys)
    (hok : blockIndexOk d ikeys = true) :
    chunkShapeOf (get_data_chunk (.dsk d) cid d.chunks mem) = some d.chunks ∧
    (inRegion ix (daskBlockShape d (blockKeys d ikeys)) = true →
      chunkElem (get_data_chunk (.dsk d) cid d.chunks mem) ix =
        some (d.data (zip3With (fun c k o => c * k + o) d.chunks (blockKeys d ikeys) ix))) ∧
    (daskBlockShape d (blockKeys d ikeys) ≠ d.chunks →
      inRegion ix (daskBlockShape d (blockKeys d ikeys)) = false →
      chunkElem (get_data_chunk (.dsk d) cid d.chunks mem) ix = some (mem ix)) := by
  have hgd : get_data_chunk (.dsk d) cid d.chunks mem =
      .ok (padTo d.chunks mem
        { shape := daskBlockShape d (blockKeys d ikeys),
          data := fun off =>
            d.data (zip3With (fun c k o => c * k + o) d.chunks (blockKeys d ikeys) off) }) := by
    simp [get_data_chunk, hp, daskBlock, hok]
  by_cases hsh : daskBlockShape d (blockKeys d ikeys) = d.chunks
  · have hpad : padTo d.chunks mem
        ({ shape := daskBlockShape d (blockKeys d ikeys),
           data := fun off =>
             d.data (zip3With (fun c k o => c * k + o) d.chunks (blockKeys d ikeys) off) }
          : NDArray α) =
        { shape := daskBlockShape d (blockKeys d ikeys),
          data := fun off =>
            d.data (zip3With (fun c k o => c * k + o) d.chunks (blockKeys d ikeys) off) } := by
      unfold padTo
      simp [hsh]
    refine ⟨?_, fun _ => ?_, fun hne _ => absurd hsh hne⟩
    · rw [hgd, hpad, chunkShapeOf_ok, hsh]
    · rw [hgd, hpad, chunkElem_ok]
  · have hpad : padTo d.chunks mem
        ({ shape := daskBlockShape d (blockKeys d ikeys),
           data := fun off =>
             d.data (zip3With (fun c k o => c * k + o) d.chunks (blockKeys d ikeys) off) }
          : NDArray α) =
        { shape := d.chunks,
          data := fun off =>
            if inRegion off (daskBlockShape d (blockKeys d ikeys)) then
              d.data (zip3With (fun c k o => c * k + o) d.chunks (blockKeys d ikeys) off)
            else mem off } := by
      unfold padTo
      simp [hsh]
    refine ⟨?_, fun hin => ?_, fun _ hout => ?_⟩
    · rw [hgd, hpad, chunkShapeOf_ok]
    · rw [hgd, hpad, chunkElem_ok]
      simp only [hin, if_true]
    · rw [hgd, hpad, chunkElem_ok]
      simp only [hout, Bool.false_eq_true, if_false]

/-- The chunked variable data used by the C1 witness and counterexample:
shape [3], declared chunks [2], so block 1 is a boundary block holding
one source element. -/
def c1dask : DaskArray Int :=
  { shape := [3], chunks := [2], data := fun ix => (ix.headD 0 : Int) + 10 }

def memA : List Nat → Int := fun _ => 0

def memB : List Nat → Int := fun _ => 77

theorem c1_edge_chunk_shape_and_regions_witness :
    chunkShapeOf (get_data_chunk (.dsk c1dask) "1" c1dask.chunks memA) = some [2] ∧
    chunkElem (get_data_chunk (.dsk c1dask) "1" c1dask.chunks memA) [0] = some 12 ∧
    chunkElem (get_data_chunk (.dsk c1dask) "1" c1dask.chunks memA) [1] = some 0 := by
  obtain ⟨h1, h2, h3⟩ :=
    c1_edge_chunk_shape_and_regions c1dask "1" [1] memA [0] (by decide) (by decide)
  obtain ⟨_, _, h3b⟩ :=
    c1_edge_chunk_shape_and_regions c1dask "1" [1] memA [1] (by decide) (by decide)
  exact ⟨h1, h2 (by decide), h3b (by decide) (by decide)⟩

/-- C1 counterexample: two identical requests for the same boundary
coordinate, differing only in the contents np.empty_like handed back,
agree on the valid region but return different padding bytes — the
padding region is not identical across repeated identical requests. -/
theorem c1_counterexample :
    chunkElem (get_data_chunk (.dsk c1dask) "1" c1dask.chunks memA) [0] = some 12 ∧
    chunkElem (get_data_chunk (.dsk c1dask) "1" c1dask.chunks memB) [0] = some 12 ∧
    chunkElem (get_data_chunk (.dsk c1dask) "1" c1dask.chunks memA) [1] = some 0 ∧
    chunkElem (get_data_chunk (.dsk c1dask) "1" c1dask.chunks memB) [1] = some 77 ∧
    chunkElem (get_data_chunk (.dsk c1dask) "1" c1dask.chunks memA) [1] ≠
      chunkElem (get_data_chunk (.dsk c1dask) "1" c1dask.chunks memB) [1] := by
  decide

/-! ## C5: chunk-mismatch validation fails at assembly time -/

theorem extract_zarray_error_validation {α : Type} (da : EncVar α) (enc : Encoding)
    (dt : String) (e : Err) (h : extract_zarray da enc dt = .error e) :
    e = .validationError := by
  unfold extract_zarray at h
  by_cases hc : inferredChunks da = enc.chunks.getD da.data.shapeOf
  · rw [if_pos hc] at h
    exact Except.noConfusion h
  · rw [if_neg hc] at h
    injection h with h1
    exact h1.symm

theorem assembleVars_bad {α : Type} (vs : List (String × EncVar α)) (k : String)
    (v : EncVar α) (hmem : (k, v) ∈ vs)
    (hbad : extract_zarray v v.xenc v.dtypeStr = .error .validationError) :
    ∀ m, assembleVars vs m = .error .validationError := by
  induction vs with
  | nil => cases hmem
  | cons hd tl ih =>
    intro m
    obtain ⟨k', v'⟩ := hd
    rcases List.mem_cons.mp hmem with heq | htl
    · injection heq with hk hv
      subst hk
      subst hv
      unfold assembleVars
      rw [hbad]
    · unfold assembleVars
      cases hx : extract_zarray v' v'.xenc v'.dtypeStr with
      | error e => rw [extract_zarray_error_validation v' v'.xenc v'.dtypeStr e hx]
      | ok za => exact ih htl _

/-- C5: a variable whose declared chunk sizes differ from the block
shape of its backing chunked source makes metadata assembly fail with
the ValidationError (ValueError), on first metadata access, and every
serving operation on a fresh accessor — any chunk or metadata request,
and get_key itself — fails with that same error before anything is
served. -/
theorem c5_validation_fails_assembly_and_serving {α : Type} (ds : Dataset α)
    (k : String) (v : EncVar α) (d : DaskArray α)
    (hmem : (k, v) ∈ ds.vars) (hd : v.data = .dsk d)
    (hmis : d.chunks ≠ v.xenc.chunks.getD d.shape) :
    get_zmetadata ds = .error .validationError ∧
    (∀ (eb : α → Bytes) (var chunk : String) (cache : Cache) (mem : List Nat → α),
      getVariableChunk eb ds var chunk freshState cache mem = .error .validationError) ∧
    (∀ (eb : α → Bytes) (var chunk : String) (mem : List Nat → α),
      get_key eb ds var chunk freshState mem = .error .validationError) := by
  have hbad : extract_zarray v v.xenc v.dtypeStr = .error .validationError := by
    unfold extract_zarray
    simp only [inferredChunks, hd, DataSource.shapeOf]
    rw [if_neg hmis]
  have hz : get_zmetadata ds = .error .validationError := by
    unfold get_zmetadata
    rw [assembleVars_bad ds.vars k v hmem hbad]
  have hacc : zmetadataAccess ds (freshState (α := α)) = .error .validationError := by
    simp [zmetadataAccess, freshState, hz]
  refine ⟨hz, fun eb var chunk cache mem => ?_, fun eb var chunk mem => ?_⟩
  · simp [getVariableChunk, hacc]
  · simp [get_key, hacc]

/-- The chunk-mismatched dask array of the C5 witness. -/
def c5dask : DaskArray Int :=
  { shape := [3], chunks := [2], data := fun _ => 0 }

/-- The C5 witness variable: backing blocks of shape [2] but declared
chunks [3]. -/
def c5var : EncVar Int :=
  { dims := ["d"], attrs := [], dtypeStr := "<i8",
    data := .dsk c5dask, enc := {}, xenc := { chunks := some [3] } }

def c5ds : Dataset Int := { attrs := [], dims := [("d", 3)], vars := [("x", c5var)] }

def ebInt : Int → Bytes := fun i => [i.toNat]

def memZeroNat : List Nat → Int := fun _ => 0

theorem c5_validation_fails_assembly_and_serving_witness :
    get_zmetadata c5ds = .error .validationError ∧
    getVariableChunk ebInt c5ds "x" "0" freshState [] memZeroNat = .error .validationError ∧
    get_key ebInt c5ds "x" "0" freshState memZeroNat = .error .validationError := by
  obtain ⟨h1, h2, h3⟩ :=
    c5_validation_fails_assembly_and_serving c5ds "x" c5var c5dask
      (List.mem_singleton.mpr rfl) rfl (by decide)
  exact ⟨h1, h2 ebInt "x" "0" [] memZeroNat, h3 ebInt "x" "0" memZeroNat⟩

/-! ## C2 and C4: dispatch of the variable/chunk endpoint -/

/-- The chunk-serving else-branch of get_variable_chunk, shared by the
dispatch proofs. -/
theorem getVariableChunk_data_branch {α : Type} (eb : α → Bytes) (ds : Dataset α)
    (var chunk : String) (st st' : AccState α) (zm : ZMeta) (cache : Cache)
    (mem : List Nat → α)
    (hacc : zmetadataAccess ds st = .ok (zm, st'))
    (h1 : pyIn array_meta_key chunk = false) (h2 : pyIn attrs_key chunk = false)
    (h3 : pyIn group_meta_key chunk = false) :
    getVariableChunk eb ds var chunk st cache mem =
      (match cacheGet cache (var ++ "/" ++ chunk) with
       | some resp => .ok (.bin resp, st', cache)
       | none =>
         match get_key eb ds var chunk st' mem with
         | .error e => .error e
         | .ok (echunk, st'') =>
           .ok (.bin echunk, st'', cachePut cache (var ++ "/" ++ chunk) echunk 0 echunk.len)) := by
  simp [getVariableChunk, hacc, h1, h2, h3]

/-- C2 (amended): the variable/chunk endpoint returns the array or attrs
metadata document exactly when the coordinate string CONTAINS the
array-meta-key or attrs-key token as a substring (array-meta-key checked
first) — not only on a literal match; a remaining coordinate containing
the group-meta-key token always yields the NotFoundError; every other
coordinate is handed to the chunk-serving path (cache lookup, then
extract-encode-and-cache). -/
theorem c2_dispatch_by_substring {α : Type} (eb : α → Bytes) (ds : Dataset α)
    (var chunk : String) (st : AccState α) (zm : ZMeta) (cache : Cache)
    (mem : List Nat → α) (eAz eAt : MetaEntry)
    (hm : st.zmetadataMemo = some zm)
    (hAz : dictGet zm.metadata (var ++ "/" ++ array_meta_key) = some eAz)
    (hAt : dictGet zm.metadata (var ++ "/" ++ attrs_key) = some eAt) :
    (pyIn array_meta_key chunk = true →
      getVariableChunk eb ds var chunk st cache mem = .ok (.meta eAz, st, cache)) ∧
    (pyIn array_meta_key chunk = false → pyIn attrs_key chunk = true →
      getVariableChunk eb ds var chunk st cache mem = .ok (.meta eAt, st, cache)) ∧
    (pyIn array_meta_key chunk = false → pyIn attrs_key chunk = false →
      pyIn group_meta_key chunk = true →
      getVariableChunk eb ds var chunk st cache mem = .error .notFound) ∧
    (pyIn array_meta_key chunk = false → pyIn attrs_key chunk = false →
      pyIn group_meta_key chunk = false →
      getVariableChunk eb ds var chunk st cache mem =
        (match cacheGet cache (var ++ "/" ++ chunk) with
         | some resp => .ok (.bin resp, st, cache)
         | none =>
           match get_key eb ds var chunk st mem with
           | .error e => .error e
           | .ok (echunk, st'') =>
             .ok (.bin echunk, st'', cachePut cache (var ++ "/" ++ chunk) echunk 0 echunk.len))) := by
  have hacc : zmetadataAccess ds st = .ok (zm, st) := by
    simp [zmetadataAccess, hm]
  refine ⟨fun h1 => ?_, fun h1 h2 => ?_, fun h1 h2 h3 => ?_, fun h1 h2 h3 => ?_⟩
  · simp [getVariableChunk, hacc, h1, hAz]
  · simp [getVariableChunk, hacc, h1, h2, hAt]
  · simp [getVariableChunk, hacc, h1, h2, h3]
  · exact getVariableChunk_data_branch eb ds var chunk st st zm cache mem hacc h1 h2 h3

/-- A concrete memoized accessor state for the dispatch witnesses. -/
def wZarr : MetaEntry :=
  .zarrayE { compressor := none, filters := none, chunks := [1], dtype := "<i8",
             fill_value := none, order := "C", shape := [1], zarr_format := 2 }

def wAttrs : MetaEntry := .attrsE [("_ARRAY_DIMENSIONS", .dimList ["d"])]

def wVar : EncVar Int :=
  { dims := ["d"], attrs := [], dtypeStr := "<i8",
    data := .npy { shape := [1], data := fun _ => 0 } }

def wZm : ZMeta :=
  { zarr_consolidated_format := 1,
    metadata := [(group_meta_key, .group 2), (attrs_key, .attrsE []),
                 ("x/.zattrs", wAttrs), ("x/.zarray", wZarr)] }

def wSt : AccState Int :=
  { zmetadataMemo := some wZm, vars := [("x", wVar)], encoding := [] }

def dsW : Dataset Int := { attrs := [], dims := [("d", 1)], vars := [("x", wVar)] }

theorem c2_dispatch_by_substring_witness :
    getVariableChunk ebInt dsW "x" ".zarray" wSt [] memZeroNat = .ok (.meta wZarr, wSt, []) ∧
    getVariableChunk ebInt dsW "x" ".zattrs" wSt [] memZeroNat = .ok (.meta wAttrs, wSt, []) ∧
    getVariableChunk ebInt dsW "x" ".zgroup" wSt [] memZeroNat = .error .notFound := by
  refine ⟨?_, ?_, ?_⟩
  · exact (c2_dispatch_by_substring ebInt dsW "x" ".zarray" wSt wZm [] memZeroNat
      wZarr wAttrs rfl rfl rfl).1 (by decide)
  · exact (c2_dispatch_by_substring ebInt dsW "x" ".zattrs" wSt wZm [] memZeroNat
      wZarr wAttrs rfl rfl rfl).2.1 (by decide) (by decide)
  · exact (c2_dispatch_by_substring ebInt dsW "x" ".zgroup" wSt wZm [] memZeroNat
      wZarr wAttrs rfl rfl rfl).2.2.1 (by decide) (by decide) (by decide)

/-- C2 counterexample: the coordinate string "0.zarray0" does not
literally equal any reserved token, yet the endpoint returns the array
metadata document for it — the reserved-token test is substring
containment, so the claim's "exactly when the coordinate literally
matches" is false. -/
theorem c2_counterexample :
    getVariableChunk ebInt dsW "x" "0.zarray0" wSt [] memZeroNat = .ok (.meta wZarr, wSt, []) ∧
    "0.zarray0" ≠ array_meta_key ∧ "0.zarray0" ≠ attrs_key ∧ "0.zarray0" ≠ group_meta_key :=
  ⟨rfl, by decide, by decide, by decide⟩

/-- C4 (amended): a chunk or per-variable-metadata request naming a
variable absent from the dataset fails with the raw KeyError of the
metadata-dict lookup (surfaced as a generic server error), not with the
NotFoundError; only coordinates containing the group-meta token get the
NotFoundError. -/
theorem c4_absent_variable_key_error {α : Type} (eb : α → Bytes) (ds : Dataset α)
    (var chunk : String) (st : AccState α) (zm : ZMeta) (cache : Cache)
    (mem : List Nat → α)
    (hm : st.zmetadataMemo = some zm)
    (hAz : dictGet zm.metadata (var ++ "/" ++ array_meta_key) = none)
    (hAt : dictGet zm.metadata (var ++ "/" ++ attrs_key) = none)
    (hng : pyIn group_meta_key chunk = false)
    (hnc : cacheGet cache (var ++ "/" ++ chunk) = none) :
    getVariableChunk eb ds var chunk st cache mem = .error .keyError := by
  have hacc : zmetadataAccess ds st = .ok (zm, st) := by
    simp [zmetadataAccess, hm]
  by_cases h1 : pyIn array_meta_key chunk = true
  · simp [getVariableChunk, hacc, h1, hAz]
  · have h1f : pyIn array_meta_key chunk = false := by
      cases hx : pyIn array_meta_key chunk
      · rfl
      · exact absurd hx h1
    by_cases h2 : pyIn attrs_key chunk = true
    · simp [getVariableChunk, hacc, h1f, h2, hAt]
    · have h2f : pyIn attrs_key chunk = false := by
        cases hx : pyIn attrs_key chunk
        · rfl
        · exact absurd hx h2
      have hgk : get_key eb ds var chunk st mem = .error .keyError := by
        simp [get_key, hacc, hAz]
      simp [getVariableChunk, hacc, h1f, h2f, hng, hnc, hgk]

theorem c4_absent_variable_key_error_witness :
    getVariableChunk ebInt dsW "y" "0" wSt [] memZeroNat = .error .keyError :=
  c4_absent_variable_key_error ebInt dsW "y" "0" wSt wZm [] memZeroNat
    rfl rfl rfl (by decide) rfl

/-- C4 counterexample: a chunk request for the absent variable "y"
fails with the raw KeyError, which is a different error class from the
NotFoundError (HTTP 404) the claim requires; only the group-token
coordinate produces the NotFoundError. -/
theorem c4_counterexample :
    getVariableChunk ebInt dsW "y" "0" wSt [] memZeroNat = .error .keyError ∧
    getVariableChunk ebInt dsW "y" ".zarray" wSt [] memZeroNat = .error .keyError ∧
    Err.keyError ≠ Err.notFound :=
  ⟨rfl, rfl, by decide⟩

/-! ## C3: the memoized consolidated metadata is mutated by info() -/

/-- The C3 dataset: one 1-D variable "x" over dimension "d". -/
def c3var : EncVar Int :=
  { dims := ["d"], attrs := [], dtypeStr := "<i8",
    data := .npy { shape := [2], data := fun ix => (ix.headD 0 : Int) } }

def c3ds : Dataset Int := { attrs := [], dims := [("d", 2)], vars := [("x", c3var)] }

def stAfterZ (r : Except Err (ZMeta × AccState Int)) : AccState Int :=
  match r with
  | .ok (_, s) => s
  | .error _ => freshState

def stAfterInfo (r : Except Err (InfoDoc Int × AccState Int)) : AccState Int :=
  match r with
  | .ok (_, s) => s
  | .error _ => freshState

/-- The accessor state after the first metadata access. -/
def c3st1 : AccState Int := stAfterZ (zmetadataAccess c3ds freshState)

/-- The accessor state after one info() call. -/
def c3st2 : AccState Int := stAfterInfo (infoOp c3ds c3st1)

/-- The per-variable attrs entry held inside the memoized zmetadata. -/
def memoAttrs {α : Type} (st : AccState α) (k : String) : Option (List (String × AttrVal)) :=
  match st.zmetadataMemo with
  | some zm =>
    match dictGet zm.metadata k with
    | some (.attrsE kvs) => some kvs
    | _ => none
  | none => none

def isKeyErrorInfo (r : Except Err (InfoDoc Int × AccState Int)) : Bool :=
  match r with
  | .error .keyError => true
  | _ => false

/-- C3 is violated by the code: after assembly the memoized per-variable
attrs entry of "x" holds the reserved dimension attribute, but one
info() call pops that key from the very dict aliased inside the
memoized structure, leaving the entry empty — the memoized structure is
not immutable. A second info() call then fails with a KeyError because
the popped key is gone. -/
theorem c3_info_mutates_memoized_metadata :
    memoAttrs c3st1 "x/.zattrs" = some [("_ARRAY_DIMENSIONS", .dimList ["d"])] ∧
    memoAttrs c3st2 "x/.zattrs" = some [] ∧
    memoAttrs c3st1 "x/.zattrs" ≠ memoAttrs c3st2 "x/.zattrs" ∧
    isKeyErrorInfo (infoOp c3ds c3st2) = true := by
  decide

/-! ## C10: cache roundtrip and repeated requests served from cache -/

theorem zmetadataAccess_ok_memo {α : Type} (ds : Dataset α) (st st' : AccState α) (zm : ZMeta)
    (h : zmetadataAccess ds st = .ok (zm, st')) : st'.zmetadataMemo = some zm := by
  cases hm : st.zmetadataMemo with
  | some z =>
    simp only [zmetadataAccess, hm] at h
    injection h with h1
    injection h1 with hz hst
    subst hst
    rw [hm, hz]
  | none =>
    simp only [zmetadataAccess, hm] at h
    cases hg : get_zmetadata ds with
    | error e =>
      simp only [hg] at h
      exact Except.noConfusion h
    | ok t =>
      obtain ⟨z, vs, es⟩ := t
      simp only [hg] at h
      injection h with h1
      injection h1 with hz hst
      subst hst
      simp [hz]

theorem zmetadataAccess_idem {α : Type} (ds : Dataset α) (st st' : AccState α) (zm : ZMeta)
    (h : zmetadataAccess ds st = .ok (zm, st')) :
    zmetadataAccess ds st' = .ok (zm, st') := by
  have hm := zmetadataAccess_ok_memo ds st st' zm h
  simp [zmetadataAccess, hm]

theorem get_key_state {α : Type} (eb : α → Bytes) (ds : Dataset α) (var chunk : String)
    (st : AccState α) (mem : List Nat → α) (zm : ZMeta) (b : Buffer) (st'' : AccState α)
    (hm : st.zmetadataMemo = some zm)
    (hk : get_key eb ds var chunk st mem = .ok (b, st'')) : st'' = st := by
  have hacc : zmetadataAccess ds st = .ok (zm, st) := by
    simp [zmetadataAccess, hm]
  unfold get_key at hk
  rw [hacc] at hk
  cases hAz : dictGet zm.metadata (var ++ "/" ++ array_meta_key) with
  | none =>
    simp only [hAz] at hk
    exact Except.noConfusion hk
  | some me =>
    cases me with
    | group zf =>
      simp only [hAz] at hk
      exact Except.noConfusion hk
    | attrsE kvs =>
      simp only [hAz] at hk
      exact Except.noConfusion hk
    | zarrayE am =>
      simp only [hAz] at hk
      cases hv : dictGet st.vars var with
      | none =>
        simp only [hv] at hk
        exact Except.noConfusion hk
      | some v =>
        simp only [hv] at hk
        cases hgd : get_data_chunk v.data chunk am.chunks mem with
        | error e =>
          simp only [hgd] at hk
          exact Except.noConfusion hk
        | ok dc =>
          simp only [hgd] at hk
          cases hec : encode_chunk (.raw (tobytes eb dc)) am.filters am.compressor with
          | error e =>
            simp only [hec] at hk
            exact Except.noConfusion hk
          | ok buf =>
            simp only [hec] at hk
            injection hk with h1
            injection h1 with hb hst
            exact hst.symm

/-- C10: a cache put followed by a get on the same key returns the
byte-identical stored content; and a repeated request for the same
(variable, chunk-coordinate) — with a successful binary first response —
returns the byte-identical payload from the cache, leaving state and
cache unchanged and independent of the second request's extraction
environment (mem' is arbitrary: nothing is re-extracted or re-encoded). -/
theorem c10_cache_roundtrip_and_repeat_request :
    (∀ (c : Cache) (k : String) (v : Buffer) (cost sz : Nat),
      cacheGet (cachePut c k v cost sz) k = some v) ∧
    (∀ (α : Type) (eb : α → Bytes) (ds : Dataset α) (var chunk : String)
      (st : AccState α) (cache : Cache) (mem mem' : List Nat → α)
      (b : Buffer) (st1 : AccState α) (c1 : Cache),
      pyIn array_meta_key chunk = false → pyIn attrs_key chunk = false →
      pyIn group_meta_key chunk = false →
      getVariableChunk eb ds var chunk st cache mem = .ok (.bin b, st1, c1) →
      getVariableChunk eb ds var chunk st1 c1 mem' = .ok (.bin b, st1, c1)) := by
  constructor
  · intro c k v cost sz
    exact dictGet_dictSet_self c k v
  · intro α eb ds var chunk st cache mem mem' b st1 c1 h1 h2 h3 hfirst
    cases hacc : zmetadataAccess ds st with
    | error e =>
      simp only [getVariableChunk, hacc] at hfirst
      exact Except.noConfusion hfirst
    | ok p =>
      obtain ⟨zm, st'⟩ := p
      rw [getVariableChunk_data_branch eb ds var chunk st st' zm cache mem hacc h1 h2 h3]
        at hfirst
      have hacc2 : zmetadataAccess ds st' = .ok (zm, st') :=
        zmetadataAccess_idem ds st st' zm hacc
      cases hcg : cacheGet cache (var ++ "/" ++ chunk) with
      | some resp =>
        simp only [hcg] at hfirst
        injection hfirst with hp
        injection hp with hb hrest
        injection hrest with hs hc
        injection hb with hresp
        rw [← hs, ← hc, ← hresp]
        rw [getVariableChunk_data_branch eb ds var chunk st' st' zm cache mem' hacc2 h1 h2 h3]
        simp only [hcg]
      | none =>
        simp only [hcg] at hfirst
        cases hgk : get_key eb ds var chunk st' mem with
        | error e =>
          simp only [hgk] at hfirst
          exact Except.noConfusion hfirst
        | ok p2 =>
          obtain ⟨echunk, st''⟩ := p2
          simp only [hgk] at hfirst
          injection hfirst with hp
          injection hp with hb hrest
          injection hrest with hs hc
          injection hb with hech
          have hm' : st'.zmetadataMemo = some zm :=
            zmetadataAccess_ok_memo ds st st' zm hacc
          have hstx : st'' = st' :=
            get_key_state eb ds var chunk st' mem zm echunk st'' hm' hgk
          rw [← hs, ← hc, ← hech, hstx]
          rw [getVariableChunk_data_branch eb ds var chunk st' st' zm
            (cachePut cache (var ++ "/" ++ chunk) echunk 0 echunk.len) mem' hacc2 h1 h2 h3]
          simp only [cacheGet, cachePut, dictGet_dictSet_self]

def memFive : List Nat → Int := fun _ => 5

theorem c10_cache_roundtrip_and_repeat_request_witness :
    cacheGet (cachePut [] "x/0" (Buffer.raw [9]) 0 1) "x/0" = some (Buffer.raw [9]) ∧
    getVariableChunk ebInt dsW "x" "0" wSt [("x/0", Buffer.raw [9])] memFive =
      .ok (.bin (Buffer.raw [9]), wSt, [("x/0", Buffer.raw [9])]) := by
  constructor
  · exact c10_cache_roundtrip_and_repeat_request.1 [] "x/0" (Buffer.raw [9]) 0 1
  · exact c10_cache_roundtrip_and_repeat_request.2 Int ebInt dsW "x" "0" wSt
      [("x/0", Buffer.raw [9])] memZeroNat memFive (Buffer.raw [9]) wSt
      [("x/0", Buffer.raw [9])] (by decide) (by decide) (by decide) rfl

end XpublishZarr
